import Mathlib

/-!
Verification of the state model of the dart-services mini playground
(`src/app.js`, remote-service variant unless noted).

The JS `state` object is `{ files: {name: text, ...}, active: name }`.
We embed it shallowly:

* `Files` is an association list in JS enumeration order.  A value of
  `none` models a JS `undefined` property value; `some s` a string value.
  All file names created by the code are non-integer-like strings, so JS
  property enumeration order coincides with insertion order, which the
  list order represents.
* JS truthiness of a property read (`state.files[k]`) is `objTruthy`:
  `undefined` and the empty string are falsy, every other string truthy.
* Property assignment (`obj[k] = v`) updates the existing entry in place
  or appends a fresh key at the end; `delete obj[k]` removes the entry.

DOM rendering, `localStorage.persist`, `alert`/`prompt`/`confirm` dialogs
have no effect on `{files, active}` beyond the control flow modelled here;
`prompt` results are passed as explicit string arguments (the empty string
also standing for a cancelled dialog, both being falsy in JS), and the
`confirm` result of the delete dialog as an explicit boolean.
-/

/-- A JS object `{name: text, ...}` as an association list in enumeration
order; `none` models an `undefined` value. -/
abbrev Files := List (String × Option String)

/-- The keys of a JS object, in enumeration order (`Object.keys`). -/
def keys (files : Files) : List String := files.map Prod.fst

/-- Property read `files[k]`: the value if the key is present, else
`none` (JS `undefined`). -/
def objGet (files : Files) (k : String) : Option String :=
  match files.find? (fun kv => kv.1 == k) with
  | some kv => kv.2
  | none => none

/-- JS truthiness of a string-or-undefined value: `undefined` and `""`
are falsy. -/
def objTruthy : Option String → Bool
  | none => false
  | some s => s != ""

/-- Property write `files[k] = v`: update in place if the key exists
(keys are unique in a JS object, so the first occurrence is the only
one), else append the new key at the end of the enumeration order. -/
def objSet : Files → String → Option String → Files
  | [], k, v => [(k, v)]
  | kv :: rest, k, v =>
    if kv.1 == k then (k, v) :: rest else kv :: objSet rest k v

/-- `delete files[k]`: remove the key. -/
def objDelete (files : Files) (k : String) : Files :=
  files.filter (fun kv => kv.1 != k)

/-- JS `s.endsWith(post)`: `post`'s characters are a suffix of `s`'s. -/
def jsEndsWith (s post : String) : Bool :=
  post.data.isSuffixOf s.data

/-- JS `a || b` for a string-or-undefined `a` with string default `b`. -/
def jsOrStr (v : Option String) (dflt : String) : String :=
  match v with
  | none => dflt
  | some s => if s == "" then dflt else s

/-- JS `a || b` on two string-or-undefined values. -/
def jsOrOpt (a b : Option String) : Option String :=
  if objTruthy a then a else b

/-- The in-memory project state `{files, active}` of `app.js`. -/
structure Project where
  files : Files
  active : String
deriving DecidableEq

/-- `DEFAULT_FILES['main.dart']` from `app.js` (remote variant). -/
def DEFAULT_MAIN : String :=
  "// Welcome to mini DartPad (Dart only)\n// You can add more files with the + button (e.g., utils.dart)\n// Then import them in main.dart:\n//   import \x27utils.dart\x27;\n\nimport \x27dart:html\x27;\n\nvoid main() \x7b\n  querySelector(\x27#app\x27)?.text = \x27Hello from Dart!\x27;\n  print(\x27Hello, console!\x27);\n\x7d\n"

/-- `DEFAULT_FILES` from `app.js`. -/
def DEFAULT_FILES : Files := [("main.dart", some DEFAULT_MAIN)]

/-- `setActive(name)`: switch the active file, refusing names whose
content is falsy (missing file, or file whose content is the empty
string).  Editor/DOM updates are outside the model. -/
def setActive (p : Project) (name : String) : Project :=
  if objTruthy (objGet p.files name) then { p with active := name } else p

/-- `ensureActiveExists()`: if the active file's content is falsy, repoint
`active` to `Object.keys(files)[0] || 'main.dart'` (note that both a
missing first key and an empty-string first key are falsy in JS). -/
def ensureActiveExists (p : Project) : Project :=
  if objTruthy (objGet p.files p.active) then p
  else
    let k0 := (keys p.files).headD ""
    { p with active := if k0 == "" then "main.dart" else k0 }

/-- `promptNewFile()` with the prompt result passed explicitly.  An empty
`name` models a cancelled or empty prompt (both falsy). -/
def promptNewFile (p : Project) (name : String) : Project :=
  if name == "" then p
  else if !(jsEndsWith name ".dart") then p
  else if objTruthy (objGet p.files name) then p
  else
    let files := objSet p.files name (some ("// " ++ name ++ "\n"))
    setActive { p with files := files } name

/-- `promptRename(oldName)` with the prompt result passed explicitly. -/
def promptRename (p : Project) (oldName name : String) : Project :=
  if name == "" || name == oldName then p
  else if !(jsEndsWith name ".dart") then p
  else if objTruthy (objGet p.files name) then p
  else
    let files1 := objSet p.files name (objGet p.files oldName)
    let files2 := objDelete files1 oldName
    let active := if p.active == oldName then name else p.active
    setActive { files := files2, active := active } active

/-- `promptDelete(name)` with the `confirm` result passed explicitly. -/
def promptDelete (p : Project) (name : String) (ok : Bool) : Project :=
  if (keys p.files).length == 1 then p
  else if !ok then p
  else
    let files := objDelete p.files name
    let p1 := ensureActiveExists { files := files, active := p.active }
    setActive p1 p1.active

/-- One user-level file operation (the three mutators of the file
registry). -/
inductive Op where
  | add (name : String)
  | rename (oldName name : String)
  | del (name : String) (ok : Bool)
deriving DecidableEq

/-- Apply one operation to the project state. -/
def applyOp (p : Project) : Op → Project
  | Op.add name => promptNewFile p name
  | Op.rename oldName name => promptRename p oldName name
  | Op.del name ok => promptDelete p name ok

/-- Apply a sequence of file operations in order. -/
def applyOps (ops : List Op) (p : Project) : Project :=
  ops.foldl applyOp p

/-- Validity of a project state: at least one file, `active` an existing
key, keys pairwise distinct (`files` is a JS object, so this always holds
for reachable states) and non-empty. -/
def ValidProject (p : Project) : Prop :=
  p.files ≠ [] ∧ p.active ∈ keys p.files ∧ (keys p.files).Nodup ∧ "" ∉ keys p.files

instance (p : Project) : Decidable (ValidProject p) := by
  unfold ValidProject; infer_instance

/-- A JS `Error` value: its `message`, and its `stack` when the engine
attached one (string-valued; engines do attach one to `new Error`, but
its text is engine-specific, so errors constructed inside the modelled
code carry `none` here and the model prints `String(e)` instead). -/
structure JsErr where
  message : String
  stack : Option String
deriving DecidableEq

/-- JS `String(e)` for an `Error` value. -/
def jsErrString (e : JsErr) : String := "Error: " ++ e.message

/-- The two entries of the `BACKENDS` constant, in order. -/
def BACKEND1 : String := "https://v1.api.dartpad.dev/api/dartservices/v2"

/-- Second backend candidate. -/
def BACKEND2 : String := "https://dart-services.appspot.com/api/dartservices/v2"

/-- `BACKENDS` from `app.js`: candidate base URLs, tried in order. -/
def BACKENDS : List String := [BACKEND1, BACKEND2]

/-- The loop of `postJSON`: try each base in order, remembering the last
error (`lastErr`); after the loop, `throw lastErr || new Error('All
backends failed')`.  The oracle `f` gives, per base URL, the outcome of
`fetch` + HTTP-status check + JSON parse for the fixed path/payload. -/
def postJSONGo {α : Type} (f : String → Except JsErr α) (lastErr : Option JsErr) :
    List String → Except JsErr α
  | [] =>
    Except.error (match lastErr with
      | some e => e
      | none => { message := "All backends failed", stack := none })
  | base :: rest =>
    match f base with
    | Except.ok v => Except.ok v
    | Except.error e => postJSONGo f (some e) rest

/-- `postJSON(path, payload)`: POST to each backend candidate in the fixed
`BACKENDS` order; first success wins, otherwise the last error is thrown. -/
def postJSON {α : Type} (f : String → Except JsErr α) : Except JsErr α :=
  postJSONGo f none BACKENDS

/-- A request payload: optional `sources` (multi-file) and optional
`source` (single-file) fields, as built by `buildSourcePayload`. -/
structure Payload where
  sources : Option Files
  source : Option String
deriving DecidableEq

/-- `buildSourcePayload(singleOnly)`: copy `state.files`, inject the
default `main.dart` into the copy when `files['main.dart']` is falsy, and
build `{source}` or `{sources, source}`.  The source writes only to the
shallow copy, so the project state is returned unchanged (values are
immutable strings, so the shallow copy shares no mutable data). -/
def buildSourcePayload (p : Project) (singleOnly : Bool) : Payload × Project :=
  let files0 := p.files
  let files :=
    if objTruthy (objGet files0 "main.dart") then files0
    else objSet files0 "main.dart" (objGet DEFAULT_FILES "main.dart")
  let payload : Payload :=
    if singleOnly then { sources := none, source := objGet files "main.dart" }
    else { sources := some files, source := objGet files "main.dart" }
  (payload, p)

/-- The status bar: its text, its `data-kind` styling attribute, and
whether a 3000 ms timer that will clear the text is pending. -/
structure StatusState where
  text : String
  kind : String
  timerPending : Bool
deriving DecidableEq

/-- `setStatus(msg, isError)`: show `msg`, style it `error` or `ok`,
cancel any pending clear timer, and schedule a new 3000 ms clear only
when `isError` is false. -/
def setStatus (_st : StatusState) (msg : String) (isError : Bool) : StatusState :=
  { text := msg, kind := if isError then "error" else "ok", timerPending := !isError }

/-- A `/compile` response: the four field names probed for the compiled
output, each possibly absent. -/
structure CompileResp where
  result : Option String
  compiledJS : Option String
  compiledJavascript : Option String
  js : Option String
deriving DecidableEq

/-- `json.result || json.compiledJS || json.compiledJavascript || json.js`. -/
def chainJS (r : CompileResp) : Option String :=
  jsOrOpt r.result (jsOrOpt r.compiledJS (jsOrOpt r.compiledJavascript r.js))

/-- Observable outcome of `compileAndRun`: the final status bar state,
the `(level, text)` lines appended to the (previously cleared) console
panel by the handler itself, and the script handed to `runInIframe`, if
any. -/
structure RunResult where
  status : StatusState
  consoleLines : List (String × String)
  ranJS : Option String
deriving DecidableEq

/-- The `catch` branch of `compileAndRun`: error status (no clear timer),
and `appendConsole('error', e.stack || String(e))`. -/
def compileFailure (st : StatusState) (e : JsErr) : RunResult :=
  { status := setStatus st ("コンパイル失敗: " ++ e.message) true
    consoleLines := [("error", jsOrStr e.stack (jsErrString e))]
    ranJS := none }

/-- The success tail of `compileAndRun`: status `実行中…` then `完了`,
script handed to `runInIframe`. -/
def runSuccess (st : StatusState) (js : String) : RunResult :=
  { status := setStatus (setStatus st "実行中…" false) "完了" false
    consoleLines := []
    ranJS := some js }

/-- `compileAndRun()` (remote variant).  `fetch pl base` is the outcome of
POSTing payload `pl` to `base + '/compile'`; each `postJSON` call runs the
backend fallback loop over it. -/
def compileAndRun (p : Project)
    (fetch : Payload → String → Except JsErr CompileResp)
    (st0 : StatusState) : RunResult :=
  let st := setStatus st0 "コンパイル中…" false
  match postJSON (fetch (buildSourcePayload p false).1) with
  | Except.error e => compileFailure st e
  | Except.ok json =>
    let js := chainJS json
    if objTruthy js then runSuccess st (js.getD "")
    else
      match postJSON (fetch (buildSourcePayload p true).1) with
      | Except.error e => compileFailure st e
      | Except.ok json2 =>
        let js2 := chainJS json2
        if objTruthy js2 then runSuccess st (js2.getD "")
        else compileFailure st { message := "Compiled JavaScript not found in response", stack := none }

/-- The exported document `{files, active, ts}`.  `JSON.stringify` drops
object entries whose value is `undefined`, which `exportProject` below
applies to `files`. -/
structure ExportDoc where
  files : Files
  active : String
  ts : Nat
deriving DecidableEq

/-- `exportProject()`: serialize `{files, active, ts: Date.now()}` (the
download itself is outside the model). -/
def exportProject (p : Project) (ts : Nat) : ExportDoc :=
  { files := p.files.filter (fun kv => kv.2.isSome), active := p.active, ts := ts }

/-- A parsed import document: `files` is `some` exactly when the parsed
object's `files` property is a non-null object (the only shape
`importProject` accepts); `active` is its `active` property when that is
a string, else `none`. -/
structure ImportDoc where
  files : Option Files
  active : Option String
deriving DecidableEq

/-- Re-reading an exported document yields its own fields. -/
def parseExport (d : ExportDoc) : ImportDoc :=
  { files := some d.files, active := some d.active }

/-- `importProject(file)` on an already-parsed document: reject (keeping
the state) when `files` is missing/not an object, else replace the whole
project, defaulting a falsy `active` to `'main.dart'`; the trailing
`setActive(state.active)` only re-renders. -/
def importProject (p : Project) (doc : ImportDoc) : Project :=
  match doc.files with
  | none => p
  | some fs =>
    let active := jsOrStr doc.active "main.dart"
    setActive { files := fs, active := active } active

theorem mem_keys_of_truthy {fs : Files} {k : String}
    (h : objTruthy (objGet fs k) = true) : k ∈ keys fs := by
  unfold objGet at h
  cases hf : fs.find? (fun kv => kv.1 == k) with
  | none => rw [hf] at h; simp [objTruthy] at h
  | some kv =>
    have hmem := List.mem_of_find?_eq_some hf
    have hk := List.find?_some hf
    have : kv.1 = k := by simpa using hk
    exact this ▸ List.mem_map_of_mem Prod.fst hmem

theorem objGet_eq_none {fs : Files} {k : String}
    (h : k ∉ keys fs) : objGet fs k = none := by
  unfold objGet
  have : fs.find? (fun kv => kv.1 == k) = none := by
    rw [List.find?_eq_none]
    intro kv hkv hbeq
    exact h (by
      have : kv.1 = k := by simpa using hbeq
      exact this ▸ List.mem_map_of_mem Prod.fst hkv)
  rw [this]

theorem keys_objSet (fs : Files) (k : String) (v : Option String) :
    keys (objSet fs k v) = if k ∈ keys fs then keys fs else keys fs ++ [k] := by
  induction fs with
  | nil => simp [objSet, keys]
  | cons kv rest ih =>
    by_cases hk : kv.1 = k
    · simp [objSet, keys, hk]
    · have hne : ¬ k = kv.1 := fun he => hk he.symm
      simp only [objSet, beq_iff_eq, hk, if_false, keys, List.map_cons]
      simp only [keys] at ih
      rw [ih]
      by_cases hm : k ∈ rest.map Prod.fst
      · simp [hm, hne]
      · simp [hm, hne]

theorem mem_keys_objSet_self (fs : Files) (k : String) (v : Option String) :
    k ∈ keys (objSet fs k v) := by
  rw [keys_objSet]
  split
  case isTrue h => exact h
  case isFalse h => simp

theorem mem_keys_objSet_of_mem {fs : Files} {x : String} (k : String) (v : Option String)
    (h : x ∈ keys fs) : x ∈ keys (objSet fs k v) := by
  rw [keys_objSet]
  split <;> simp [h]

theorem mem_keys_objSet_elim {fs : Files} {x k : String} {v : Option String}
    (h : x ∈ keys (objSet fs k v)) : x ∈ keys fs ∨ x = k := by
  rw [keys_objSet] at h
  revert h
  split <;> intro h
  · exact Or.inl h
  · simpa using h

theorem nodup_keys_objSet {fs : Files} (k : String) (v : Option String)
    (h : (keys fs).Nodup) : (keys (objSet fs k v)).Nodup := by
  rw [keys_objSet]
  split
  case isTrue hc => exact h
  case isFalse hc =>
    refine List.Nodup.append h (List.nodup_singleton k) ?_
    intro a ha hb
    have : a = k := by simpa using hb
    exact hc (this ▸ ha)

theorem mem_keys_objDelete {fs : Files} {x k : String}
    (hx : x ∈ keys fs) (hne : x ≠ k) : x ∈ keys (objDelete fs k) := by
  unfold keys at hx ⊢
  rcases List.mem_map.mp hx with ⟨kv, hkv, hfst⟩
  refine List.mem_map.mpr ⟨kv, ?_, hfst⟩
  refine List.mem_filter.mpr ⟨hkv, ?_⟩
  simp [hfst ▸ hne]

theorem keys_objDelete_sublist (fs : Files) (k : String) :
    (keys (objDelete fs k)).Sublist (keys fs) :=
  (List.filter_sublist fs).map Prod.fst

theorem mem_keys_objDelete_elim {fs : Files} {x k : String}
    (h : x ∈ keys (objDelete fs k)) : x ∈ keys fs :=
  (keys_objDelete_sublist fs k).mem h

theorem nodup_keys_objDelete {fs : Files} (k : String)
    (h : (keys fs).Nodup) : (keys (objDelete fs k)).Nodup :=
  (keys_objDelete_sublist fs k).nodup h

theorem objGet_objSet_self (fs : Files) (k : String) (v : Option String) :
    objGet (objSet fs k v) k = v := by
  induction fs with
  | nil => simp [objSet, objGet]
  | cons kv rest ih =>
    by_cases hk : kv.1 = k
    · simp [objSet, objGet, hk]
    · simpa [objSet, objGet, hk] using ih

theorem headD_mem {l : List String} (h : l ≠ []) (d : String) : l.headD d ∈ l := by
  cases l with
  | nil => exact absurd rfl h
  | cons a t => simp

theorem setActive_self (p : Project) : setActive p p.active = p := by
  unfold setActive
  split <;> rfl

theorem ne_nil_of_mem_keys {fs : Files} {x : String} (h : x ∈ keys fs) : fs ≠ [] := by
  intro he
  subst he
  simp [keys] at h

theorem objSet_ne_nil (fs : Files) (k : String) (v : Option String) :
    objSet fs k v ≠ [] := by
  cases fs with
  | nil => simp [objSet]
  | cons kv rest =>
    simp only [objSet]
    split <;> simp

theorem newContent_ne_empty (name : String) : ("// " ++ name ++ "\n") ≠ "" := by
  intro h
  have h2 := congrArg String.length h
  simp [String.length_append] at h2
  exact absurd h2.2 (by decide)

theorem promptNewFile_valid (p : Project) (name : String)
    (h : ValidProject p) : ValidProject (promptNewFile p name) := by
  unfold promptNewFile
  split
  · exact h
  · split
    · exact h
    · split
      · exact h
      case isFalse hname _ _ =>
        have hne : name ≠ "" := by simpa using hname
        have hget := objGet_objSet_self p.files name (some ("// " ++ name ++ "\n"))
        have htr : objTruthy (objGet (objSet p.files name (some ("// " ++ name ++ "\n"))) name) = true := by
          rw [hget]
          simpa [objTruthy] using newContent_ne_empty name
        rw [setActive, htr]
        refine ⟨objSet_ne_nil _ _ _, mem_keys_objSet_self _ _ _,
          nodup_keys_objSet _ _ h.2.2.1, ?_⟩
        intro hm
        rcases mem_keys_objSet_elim hm with h1 | h2
        · exact h.2.2.2 h1
        · exact hne h2.symm

theorem promptRename_valid (p : Project) (oldName name : String)
    (h : ValidProject p) : ValidProject (promptRename p oldName name) := by
  unfold promptRename
  split
  · exact h
  · split
    · exact h
    · split
      · exact h
      case isFalse hguard _ _ =>
        have hg : ¬(name == "") = true ∧ ¬(name == oldName) = true := by
          constructor <;> intro hb <;> simp [hb] at hguard
        have hne : name ≠ "" := by simpa using hg.1
        have hneo : name ≠ oldName := by simpa using hg.2
        rw [setActive_self ⟨_, _⟩]
        have hsub : ∀ x, x ∈ keys (objDelete (objSet p.files name (objGet p.files oldName)) oldName) →
            x ∈ keys p.files ∨ x = name := by
          intro x hx
          exact mem_keys_objSet_elim (mem_keys_objDelete_elim hx)
        have hmemname : name ∈ keys (objDelete (objSet p.files name (objGet p.files oldName)) oldName) :=
          mem_keys_objDelete (mem_keys_objSet_self _ _ _) hneo
        refine ⟨ne_nil_of_mem_keys hmemname, ?_, ?_, ?_⟩
        · by_cases hao : p.active == oldName
          · simpa [hao] using hmemname
          · have hane : p.active ≠ oldName := by simpa using hao
            simpa [hao] using
              mem_keys_objDelete (mem_keys_objSet_of_mem _ _ h.2.1) hane
        · exact nodup_keys_objDelete _ (nodup_keys_objSet _ _ h.2.2.1)
        · intro hm
          rcases hsub "" hm with h1 | h2
          · exact h.2.2.2 h1
          · exact hne h2.symm

theorem ensureActiveExists_valid (q : Project) (hne : q.files ≠ [])
    (hnd : (keys q.files).Nodup) (hemp : "" ∉ keys q.files) :
    ValidProject (ensureActiveExists q) := by
  unfold ensureActiveExists
  split
  case isTrue htr => exact ⟨hne, mem_keys_of_truthy htr, hnd, hemp⟩
  case isFalse htr =>
    have hkeys : keys q.files ≠ [] := fun hk => hne (List.map_eq_nil_iff.mp hk)
    have hhead : (keys q.files).headD "" ∈ keys q.files := headD_mem hkeys ""
    have hh : (keys q.files).headD "" ≠ "" := fun he => hemp (he ▸ hhead)
    have hc : ((keys q.files).headD "" == "") = false := by simpa using hh
    refine ⟨hne, ?_, hnd, hemp⟩
    show (if ((keys q.files).headD "" == "") = true then "main.dart"
      else (keys q.files).headD "") ∈ keys q.files
    rw [hc]
    simpa using hhead

theorem promptDelete_valid (p : Project) (name : String) (ok : Bool)
    (h : ValidProject p) : ValidProject (promptDelete p name ok) := by
  unfold promptDelete
  by_cases hlen : ((keys p.files).length == 1) = true
  · rw [if_pos hlen]
    exact h
  · rw [if_neg hlen]
    by_cases hok : (!ok) = true
    · rw [if_pos hok]
      exact h
    · rw [if_neg hok]
      have hlen1 : (keys p.files).length ≠ 1 := by simpa using hlen
      have hne : objDelete p.files name ≠ [] := by
        intro hdel
        have hall : ∀ kv ∈ p.files, kv.1 = name := by
          intro kv hkv
          have hnp := List.filter_eq_nil_iff.mp hdel kv hkv
          simpa using hnp
        have hallk : ∀ x ∈ keys p.files, x = name := by
          intro x hx
          rcases List.mem_map.mp hx with ⟨kv, hkv, hfst⟩
          exact hfst ▸ hall kv hkv
        rcases hk : keys p.files with _ | ⟨x, _ | ⟨y, t⟩⟩
        · exact h.1 (List.map_eq_nil_iff.mp hk)
        · exact hlen1 (by rw [hk]; rfl)
        · have hx := hallk x (by rw [hk]; simp)
          have hy := hallk y (by rw [hk]; simp)
          have hnd2 := h.2.2.1
          rw [hk] at hnd2
          exact (List.nodup_cons.mp hnd2).1 (by simp [hx, hy])
      have hnd : (keys (objDelete p.files name)).Nodup := nodup_keys_objDelete _ h.2.2.1
      have hemp : "" ∉ keys (objDelete p.files name) := fun hm =>
        h.2.2.2 (mem_keys_objDelete_elim hm)
      rw [setActive_self]
      exact ensureActiveExists_valid _ hne hnd hemp

theorem applyOp_valid (p : Project) (op : Op)
    (h : ValidProject p) : ValidProject (applyOp p op) := by
  cases op with
  | add name => exact promptNewFile_valid p name h
  | rename oldName name => exact promptRename_valid p oldName name h
  | del name ok => exact promptDelete_valid p name ok h

theorem applyOps_valid (ops : List Op) (p : Project)
    (h : ValidProject p) : ValidProject (applyOps ops p) := by
  induction ops generalizing p with
  | nil => exact h
  | cons op rest ih => exact ih (applyOp p op) (applyOp_valid p op h)

theorem objSet_append_of_not_mem {fs : Files} {k : String} (h : k ∉ keys fs)
    (v : Option String) : objSet fs k v = fs ++ [(k, v)] := by
  induction fs with
  | nil => simp [objSet]
  | cons kv rest ih =>
    have hk1 : kv.1 ≠ k := fun he => h (by simp [keys, he])
    have h2 : k ∉ keys rest := by
      intro hm
      apply h
      simp only [keys, List.map_cons, List.mem_cons]
      exact Or.inr (by simpa [keys] using hm)
    have hstep : objSet (kv :: rest) k v = kv :: objSet rest k v := by
      simp [objSet, hk1]
    rw [hstep, ih h2, List.cons_append]

/-- C1 (amended): starting from a valid project state whose file names are
moreover pairwise distinct and non-empty, any sequence of
add/rename/delete operations keeps `active` a key of `files` (and keeps
the whole validity invariant).  The original claim, quantified over
states with possibly empty file names, fails: see
`fileOps_active_key_cex`. -/
theorem fileOps_preserve_active_key (ops : List Op) (p : Project)
    (h : ValidProject p) :
    (applyOps ops p).active ∈ keys (applyOps ops p).files :=
  (applyOps_valid ops p h).2.1

/-- C1 counterexample to the claim as stated: a project whose `files` is
non-empty and whose `active` is a key, but which contains a file named
`""`; deleting the other file makes `ensureActiveExists` evaluate
`Object.keys(files)[0] || 'main.dart'`, and since the surviving first key
`""` is falsy, `active` becomes the non-key `"main.dart"`. -/
theorem fileOps_active_key_cex :
    (Project.mk [("", some "x"), ("b.dart", some "y")] "b.dart").files ≠ [] ∧
    (Project.mk [("", some "x"), ("b.dart", some "y")] "b.dart").active ∈
      keys (Project.mk [("", some "x"), ("b.dart", some "y")] "b.dart").files ∧
    (applyOps [Op.del "b.dart" true] (Project.mk [("", some "x"), ("b.dart", some "y")] "b.dart")).active ∉
      keys (applyOps [Op.del "b.dart" true] (Project.mk [("", some "x"), ("b.dart", some "y")] "b.dart")).files := by
  decide

/-- C1 witness: a concrete valid run (add a file, then delete the first
one) keeping `active` among the keys. -/
theorem fileOps_preserve_active_key_witness :
    ValidProject (Project.mk [("main.dart", some "void main()")] "main.dart") ∧
    (applyOps [Op.add "utils.dart", Op.del "main.dart" true]
        (Project.mk [("main.dart", some "void main()")] "main.dart")).active ∈
      keys (applyOps [Op.add "utils.dart", Op.del "main.dart" true]
        (Project.mk [("main.dart", some "void main()")] "main.dart")).files :=
  ⟨by decide, fileOps_preserve_active_key _ _ (by decide)⟩

/-- C2: when `files` has exactly one key, `promptDelete` refuses any
deletion request (whatever the name and whatever the confirm answer) and
leaves the project state unchanged. -/
theorem promptDelete_last_file_refused (p : Project) (name : String) (ok : Bool)
    (h : (keys p.files).length = 1) : promptDelete p name ok = p := by
  unfold promptDelete
  rw [if_pos (by simpa using h)]

/-- C2 witness at a concrete one-file project. -/
theorem promptDelete_last_file_refused_witness :
    (keys ([("main.dart", some "m")] : Files)).length = 1 ∧
    promptDelete (Project.mk [("main.dart", some "m")] "main.dart") "main.dart" true
      = Project.mk [("main.dart", some "m")] "main.dart" :=
  ⟨by decide, promptDelete_last_file_refused _ "main.dart" true (by decide)⟩

/-- C3 (amended): a rename is a no-op when the requested new name has a
truthy entry in `files` (a key with non-empty, defined content), or when
its name does not end in `.dart`.  The original claim — a no-op whenever
the new name is *any* existing key — fails, because the collision check
is a JS truthiness test: see `promptRename_existing_key_cex`. -/
theorem promptRename_noop (p : Project) (oldName name : String) :
    (objTruthy (objGet p.files name) = true → promptRename p oldName name = p) ∧
    (jsEndsWith name ".dart" = false → promptRename p oldName name = p) := by
  constructor
  · intro htr
    unfold promptRename
    by_cases h1 : (name == "" || name == oldName) = true
    · rw [if_pos h1]
    · rw [if_neg h1]
      by_cases h2 : (!(jsEndsWith name ".dart")) = true
      · rw [if_pos h2]
      · rw [if_neg h2, if_pos htr]
  · intro hext
    unfold promptRename
    by_cases h1 : (name == "" || name == oldName) = true
    · rw [if_pos h1]
    · rw [if_neg h1, if_pos (by simp [hext])]

/-- C3 counterexample to the claim as stated: `"main.dart"` is an
existing key, but its content is the empty string (falsy), so
`promptRename` proceeds and mutates the state. -/
theorem promptRename_existing_key_cex :
    "main.dart" ∈ keys (Project.mk [("main.dart", some ""), ("a.dart", some "x")] "a.dart").files ∧
    promptRename (Project.mk [("main.dart", some ""), ("a.dart", some "x")] "a.dart") "a.dart" "main.dart"
      ≠ Project.mk [("main.dart", some ""), ("a.dart", some "x")] "a.dart" := by
  decide

/-- C3 witness: renaming onto a key with truthy content is refused. -/
theorem promptRename_noop_witness :
    objTruthy (objGet ([("a.dart", some "x"), ("b.dart", some "y")] : Files) "b.dart") = true ∧
    promptRename (Project.mk [("a.dart", some "x"), ("b.dart", some "y")] "a.dart") "a.dart" "b.dart"
      = Project.mk [("a.dart", some "x"), ("b.dart", some "y")] "a.dart" :=
  ⟨by decide, (promptRename_noop _ "a.dart" "b.dart").1 (by decide)⟩

/-- C4 (amended): adding a fresh `.dart` name appends an entry whose
content is `"// <name>\n"` — with a trailing newline, which the original
claim omits (see `promptNewFile_content_cex`) — and makes it active. -/
theorem promptNewFile_adds (p : Project) (name : String)
    (h1 : jsEndsWith name ".dart" = true) (h2 : name ∉ keys p.files) :
    (promptNewFile p name).files = p.files ++ [(name, some ("// " ++ name ++ "\n"))] ∧
    (promptNewFile p name).active = name := by
  have hne : name ≠ "" := by
    intro he
    rw [he] at h1
    exact absurd h1 (by decide)
  unfold promptNewFile
  rw [if_neg (by simpa using hne)]
  rw [if_neg (by simp [h1])]
  rw [if_neg (by simp [objGet_eq_none h2, objTruthy])]
  have htr : objTruthy (objGet (objSet p.files name (some ("// " ++ name ++ "\n"))) name) = true := by
    rw [objGet_objSet_self]
    simpa [objTruthy] using newContent_ne_empty name
  unfold setActive
  rw [if_pos htr]
  exact ⟨objSet_append_of_not_mem h2 _, rfl⟩

/-- C4 counterexample to the claim as stated: from the spec's example
project, adding `"utils.dart"` seeds content `"// utils.dart\n"`, not
exactly `"// utils.dart"`. -/
theorem promptNewFile_content_cex :
    objGet (promptNewFile (Project.mk [("main.dart", some "void main()")] "main.dart") "utils.dart").files "utils.dart"
      ≠ some "// utils.dart" ∧
    objGet (promptNewFile (Project.mk [("main.dart", some "void main()")] "main.dart") "utils.dart").files "utils.dart"
      = some "// utils.dart\n" := by
  decide

/-- C4 witness: the spec's example — adding `"utils.dart"` to a project
holding only `"main.dart"` yields exactly the two keys and makes
`"utils.dart"` active. -/
theorem promptNewFile_adds_witness :
    jsEndsWith "utils.dart" ".dart" = true ∧
    "utils.dart" ∉ keys ([("main.dart", some "void main()")] : Files) ∧
    (promptNewFile (Project.mk [("main.dart", some "void main()")] "main.dart") "utils.dart").files
      = [("main.dart", some "void main()")] ++ [("utils.dart", some ("// " ++ "utils.dart" ++ "\n"))] ∧
    (promptNewFile (Project.mk [("main.dart", some "void main()")] "main.dart") "utils.dart").active
      = "utils.dart" :=
  ⟨by decide, by decide,
    (promptNewFile_adds _ "utils.dart" (by decide) (by decide)).1,
    (promptNewFile_adds _ "utils.dart" (by decide) (by decide)).2⟩

/-- C5: `postJSON` tries the backend candidates in their fixed list
order: it returns the parsed response of the first candidate that
completes without a transport or HTTP-status error (surfacing no error),
and when every candidate fails it throws the error of the last candidate
tried.  With the two-element `BACKENDS` list this is exactly the
characterization below (first case: first candidate succeeded; second
case: the result is whatever the last candidate produced, its success or
its error). -/
theorem postJSON_fallback {α : Type} (f : String → Except JsErr α) :
    postJSON f = match f BACKEND1 with
      | Except.ok v => Except.ok v
      | Except.error _ => f BACKEND2 := by
  unfold postJSON BACKENDS
  cases h1 : f BACKEND1 with
  | ok v => simp [postJSONGo, h1]
  | error e =>
    cases h2 : f BACKEND2 with
    | ok v => simp [postJSONGo, h1, h2]
    | error e2 => simp [postJSONGo, h1, h2]

/-- C6 (amended): export followed by import restores the identical
`files` mapping and `active` pointer for every project state whose
`active` is a non-empty string and whose file values are all defined
strings.  The original universally-quantified claim fails on a state
whose active file is named `""`: see `export_import_roundtrip_cex`. -/
theorem export_import_roundtrip (p : Project) (ts : Nat)
    (h1 : p.active ≠ "") (h2 : ∀ kv ∈ p.files, kv.2.isSome = true) :
    importProject p (parseExport (exportProject p ts)) = p := by
  unfold exportProject parseExport importProject
  have hf : p.files.filter (fun kv => kv.2.isSome) = p.files :=
    List.filter_eq_self.mpr h2
  rw [hf]
  have ha : jsOrStr (some p.active) "main.dart" = p.active := by
    simp [jsOrStr, h1]
  rw [ha]
  exact setActive_self p

/-- C6 counterexample to the claim as stated: a valid project whose
single file is named `""` and active; `active: ""` survives export, but
`importProject` evaluates `obj.active || 'main.dart'`, and the falsy
empty string is replaced by `"main.dart"`. -/
theorem export_import_roundtrip_cex :
    importProject (Project.mk [("", some "x")] "")
        (parseExport (exportProject (Project.mk [("", some "x")] "") 0))
      ≠ Project.mk [("", some "x")] "" := by
  decide

/-- C6 witness at a concrete ordinary project. -/
theorem export_import_roundtrip_witness :
    (Project.mk [("main.dart", some "m")] "main.dart").active ≠ "" ∧
    importProject (Project.mk [("main.dart", some "m")] "main.dart")
        (parseExport (exportProject (Project.mk [("main.dart", some "m")] "main.dart") 42))
      = Project.mk [("main.dart", some "m")] "main.dart" :=
  ⟨by decide, export_import_roundtrip _ 42 (by decide) (by decide)⟩

/-- C9: `importProject` accepts any document whose `files` is a non-null
object — the whole project is replaced by the document's fields; in
particular `{"files":{}}` passes validation and installs an empty `files`
mapping with the dangling default `active` `"main.dart"`, and a document
whose `active` is not a key of its `files` is installed with that
dangling pointer persisted — import alone breaks both the
at-least-one-file and the active-in-files invariants. -/
theorem importProject_lenient (p : Project) (fs : Files) (act : Option String) :
    (importProject p (ImportDoc.mk (some fs) act)).files = fs ∧
    (importProject p (ImportDoc.mk (some []) none)).files = [] ∧
    (importProject p (ImportDoc.mk (some []) none)).active = "main.dart" ∧
    (importProject p (ImportDoc.mk (some []) none)).active ∉
      keys (importProject p (ImportDoc.mk (some []) none)).files ∧
    (importProject p (ImportDoc.mk (some [("a.dart", some "x")]) (some "b.dart"))).active = "b.dart" ∧
    "b.dart" ∉ keys (importProject p (ImportDoc.mk (some [("a.dart", some "x")]) (some "b.dart"))).files := by
  refine ⟨?_, rfl, rfl, ?_, rfl, ?_⟩
  case refine_2 =>
    rw [show importProject p (ImportDoc.mk (some []) none)
        = Project.mk ([] : Files) "main.dart" from rfl]
    decide
  case refine_3 =>
    rw [show importProject p (ImportDoc.mk (some [("a.dart", some "x")]) (some "b.dart"))
        = Project.mk [("a.dart", some "x")] "b.dart" from rfl]
    decide
  have hred : importProject p (ImportDoc.mk (some fs) act)
      = setActive (Project.mk fs (jsOrStr act "main.dart")) (jsOrStr act "main.dart") := rfl
  rw [hred]
  unfold setActive
  split <;> rfl

/-- C10: `buildSourcePayload` never mutates the project state (it writes
only to a shallow copy of `files`, so the returned state equals the
input), and the multi-file payload's `sources` always contains the key
`"main.dart"` (either it was already truthy, or the default entry was
injected into the copy). -/
theorem buildSourcePayload_frame (p : Project) (singleOnly : Bool) :
    (buildSourcePayload p singleOnly).2 = p ∧
    ∃ fs, (buildSourcePayload p false).1.sources = some fs ∧ "main.dart" ∈ keys fs := by
  refine ⟨rfl, ?_⟩
  unfold buildSourcePayload
  by_cases h : objTruthy (objGet p.files "main.dart") = true
  · exact ⟨p.files, by simp [h], mem_keys_of_truthy h⟩
  · have hb : objTruthy (objGet p.files "main.dart") = false := by
      cases hx : objTruthy (objGet p.files "main.dart")
      · rfl
      · exact absurd hx h
    exact ⟨objSet p.files "main.dart" (objGet DEFAULT_FILES "main.dart"),
      by simp [hb], mem_keys_objSet_self _ _ _⟩

/-- C7: `compileAndRun` (remote variant) probes the response fields
`result`, `compiledJS`, `compiledJavascript`, `js` in that order (first
four conjuncts); the first request carries both `sources` and `source`
while the retry payload is `{source}`-only (next two conjuncts); if the
first request yields no truthy field it retries once with the
`{source}`-only payload, and if the retry also yields none the operation
fails with an error and hands no script to `runInIframe`. -/
theorem compileAndRun_probe_retry (p : Project)
    (fetch : Payload → String → Except JsErr CompileResp)
    (st : StatusState) (j1 j2 : CompileResp) :
    (chainJS (CompileResp.mk (some "r") (some "c") (some "v") (some "j")) = some "r" ∧
     chainJS (CompileResp.mk none (some "c") (some "v") (some "j")) = some "c" ∧
     chainJS (CompileResp.mk none none (some "v") (some "j")) = some "v" ∧
     chainJS (CompileResp.mk none none none (some "j")) = some "j") ∧
    (buildSourcePayload p false).1.sources.isSome = true ∧
    (buildSourcePayload p true).1.sources = none ∧
    (postJSON (fetch (buildSourcePayload p false).1) = Except.ok j1 →
      objTruthy (chainJS j1) = true →
      compileAndRun p fetch st
        = runSuccess (setStatus st "コンパイル中…" false) ((chainJS j1).getD "")) ∧
    (postJSON (fetch (buildSourcePayload p false).1) = Except.ok j1 →
      objTruthy (chainJS j1) = false →
      postJSON (fetch (buildSourcePayload p true).1) = Except.ok j2 →
      objTruthy (chainJS j2) = true →
      compileAndRun p fetch st
        = runSuccess (setStatus st "コンパイル中…" false) ((chainJS j2).getD "")) ∧
    (postJSON (fetch (buildSourcePayload p false).1) = Except.ok j1 →
      objTruthy (chainJS j1) = false →
      postJSON (fetch (buildSourcePayload p true).1) = Except.ok j2 →
      objTruthy (chainJS j2) = false →
      compileAndRun p fetch st
        = compileFailure (setStatus st "コンパイル中…" false)
            (JsErr.mk "Compiled JavaScript not found in response" none) ∧
      (compileAndRun p fetch st).ranJS = none) := by
  refine ⟨⟨by decide, by decide, by decide, by decide⟩, rfl, rfl, ?_, ?_, ?_⟩
  · intro h1 htr
    simp [compileAndRun, h1, htr]
  · intro h1 htr1 h2 htr2
    simp [compileAndRun, h1, htr1, h2, htr2]
  · intro h1 htr1 h2 htr2
    have hc : compileAndRun p fetch st
        = compileFailure (setStatus st "コンパイル中…" false)
            (JsErr.mk "Compiled JavaScript not found in response" none) := by
      simp [compileAndRun, h1, htr1, h2, htr2]
    exact ⟨hc, by rw [hc]; rfl⟩

/-- C7 witness: a backend that returns an empty response object for the
multi-file payload and `{result: "JS"}` for the `{source}`-only retry —
the retry succeeds and `"JS"` is run. -/
theorem compileAndRun_probe_retry_witness :
    compileAndRun (Project.mk [("main.dart", some "m")] "main.dart")
      (fun pl _ =>
        if pl.sources.isSome then Except.ok (CompileResp.mk none none none none)
        else Except.ok (CompileResp.mk (some "JS") none none none))
      (StatusState.mk "" "ok" false)
      = runSuccess (setStatus (StatusState.mk "" "ok" false) "コンパイル中…" false) "JS" := by
  have h := (compileAndRun_probe_retry (Project.mk [("main.dart", some "m")] "main.dart")
    (fun pl _ =>
      if pl.sources.isSome then Except.ok (CompileResp.mk none none none none)
      else Except.ok (CompileResp.mk (some "JS") none none none))
    (StatusState.mk "" "ok" false)
    (CompileResp.mk none none none none)
    (CompileResp.mk (some "JS") none none none)).2.2.2.2.1
  exact h rfl rfl rfl rfl

/-- C8 (amended): a surfaced transport/backend error is displayed with
error styling and the compile failure appends one error line (the stack,
or `String(e)`) to the console panel — but the error status is *not*
timed: `setStatus` schedules the 3000 ms clear only for non-error
statuses, so the error text persists (see `setStatus_error_timed_cex`
against the original claim). -/
theorem setStatus_error_spec (st : StatusState) (msg : String) (e : JsErr) (p : Project)
    (fetch : Payload → String → Except JsErr CompileResp) :
    (setStatus st msg true).kind = "error" ∧
    (setStatus st msg true).timerPending = false ∧
    (setStatus st msg false).timerPending = true ∧
    (postJSON (fetch (buildSourcePayload p false).1) = Except.error e →
      compileAndRun p fetch st = compileFailure (setStatus st "コンパイル中…" false) e ∧
      (compileAndRun p fetch st).status.kind = "error" ∧
      (compileAndRun p fetch st).status.text = "コンパイル失敗: " ++ e.message ∧
      (compileAndRun p fetch st).status.timerPending = false ∧
      (compileAndRun p fetch st).consoleLines = [("error", jsOrStr e.stack (jsErrString e))]) := by
  refine ⟨rfl, rfl, rfl, ?_⟩
  intro h1
  have hc : compileAndRun p fetch st
      = compileFailure (setStatus st "コンパイル中…" false) e := by
    simp [compileAndRun, h1]
  exact ⟨hc, by rw [hc]; rfl, by rw [hc]; rfl, by rw [hc]; rfl, by rw [hc]; rfl⟩

/-- C8 counterexample to the claim as stated: when every backend
candidate fails, the surfaced error status has error styling but no
pending clear timer — unlike non-error statuses, which do get the timed
clear.  So the error message is not cleared after the fixed delay. -/
theorem setStatus_error_timed_cex :
    (compileAndRun (Project.mk [("main.dart", some "m")] "main.dart")
        (fun _ _ => Except.error (JsErr.mk "boom" (some "trace")))
        (StatusState.mk "" "ok" false)).status.kind = "error" ∧
    (compileAndRun (Project.mk [("main.dart", some "m")] "main.dart")
        (fun _ _ => Except.error (JsErr.mk "boom" (some "trace")))
        (StatusState.mk "" "ok" false)).status.timerPending = false ∧
    (setStatus (StatusState.mk "" "ok" false) "done" false).timerPending = true := by
  decide

/-- C8 witness: concrete failing backend exercising the implication of
`setStatus_error_spec`. -/
theorem setStatus_error_spec_witness :
    compileAndRun (Project.mk [("main.dart", some "m")] "main.dart")
      (fun _ _ => Except.error (JsErr.mk "down" none))
      (StatusState.mk "" "ok" false)
      = compileFailure (setStatus (StatusState.mk "" "ok" false) "コンパイル中…" false)
          (JsErr.mk "down" none) := by
  have h := (setStatus_error_spec (StatusState.mk "" "ok" false) "x" (JsErr.mk "down" none)
    (Project.mk [("main.dart", some "m")] "main.dart")
    (fun _ _ => Except.error (JsErr.mk "down" none))).2.2.2
  exact (h rfl).1
